import Mathlib

/-!
Shallow embedding of the video-archiver server (src/main.rs).

The filesystem is modelled as an association list from full path strings to
byte contents (bytes as `Nat`), together with a flag recording whether the
`./archive` directory exists.  Each HTTP handler from `main.rs` becomes a
pure function from the filesystem state (plus explicit fault-injection
parameters standing for the I/O errors the real system can encounter) to the
new state and the response.  Concurrency is out of scope: each handler is a
single atomic step, as each request's handler body is in the source.
-/

set_option autoImplicit false

namespace VideoArchiver

/-- A byte. -/
abbrev Byte := Nat

/-- File contents: a finite byte sequence. -/
abbrev Bytes := List Byte

/-- The filesystem: `files` maps full path strings (e.g. `"./archive/a.mp4"`)
to contents; `archiveExists` records whether the `./archive` directory exists. -/
structure FSState where
  files : List (String × Bytes)
  archiveExists : Bool
  deriving Repr, DecidableEq

/-- The empty filesystem: no files, no `./archive` directory. -/
def fsEmpty : FSState := ⟨[], false⟩

/-- Look up the contents stored at a path (first matching entry). -/
def lookupFile : List (String × Bytes) → String → Option Bytes
  | [], _ => none
  | e :: rest, p => if e.1 = p then some e.2 else lookupFile rest p

/-- Store `content` at `path`, overwriting an existing entry
(`File::create` truncates an existing file). -/
def setFile : List (String × Bytes) → String → Bytes → List (String × Bytes)
  | [], p, c => [(p, c)]
  | e :: rest, p, c => if e.1 = p then (p, c) :: rest else e :: setFile rest p c

/-- Remove the entry at `path` (`tokio::fs::remove_file`). -/
def removeFile (files : List (String × Bytes)) (path : String) :
    List (String × Bytes) :=
  files.filter (fun e => decide (e.1 ≠ path))

/-- The result of a Rust function that can also panic (`expect`/`unwrap`):
`ok` and `err` are the two sides of `Result`; `panic` aborts the handler task
without producing a value. -/
inductive RustResult (α : Type) where
  | ok (a : α)
  | err (e : String)
  | panic (msg : String)
  deriving Repr, DecidableEq

/-- The storage path every handler forms from the client-supplied name,
verbatim: `format!("./archive/\x7b\x7d", file_name)`. -/
def archivePath (file_name : String) : String := "./archive/" ++ file_name

/-- Remove an expected leading character sequence: `stripChars pre s` is
`some t` iff `s = pre ++ t`.  Used to recover directory-entry names from
full paths when modelling `read_dir`. -/
def stripChars : List Char → List Char → Option (List Char)
  | [], s => some s
  | _ :: _, [] => none
  | p :: ps, c :: cs => if c = p then stripChars ps cs else none

/-- The name of a directory entry of `./archive` whose full path is `p`,
if `p` indeed lies in `./archive`. -/
def entryName (p : String) : Option String :=
  (stripChars "./archive/".data p.data).map String.mk

/-- The directory listing `read_dir("./archive")` produces: the names of all
stored files whose path lies under `./archive/`. -/
def readDirArchive (fs : FSState) : List String :=
  fs.files.filterMap (fun e => entryName e.1)

/-- Faults that the filesystem may inject into one `save_file` call:
`createFails` makes `File::create` return an error; `writeFailAt = some i`
makes the `write_all` of chunk `i` (0-based) return an error. -/
structure SaveFaults where
  createFails : Bool
  writeFailAt : Option Nat
  deriving Repr, DecidableEq

/-- The fault-free filesystem behaviour. -/
def noFaults : SaveFaults := ⟨false, none⟩

/-- Append one chunk to the (already created) file at `path` — one
`file.write_all(&chunk)` call. -/
def writeChunk (fs : FSState) (path : String) (chunk : Bytes) : FSState :=
  { fs with files := setFile fs.files path ((lookupFile fs.files path).getD [] ++ chunk) }

/-- The `while let Some(chunk) = field.chunk().await?` loop of `save_file`:
write each chunk in order; `i` is the index of the next chunk, checked
against the injected write fault. -/
def writeLoop (faults : SaveFaults) (path : String) :
    Nat → FSState → List Bytes → FSState × RustResult Unit
  | _, fs, [] => (fs, .ok ())
  | i, fs, chunk :: rest =>
    if faults.writeFailAt = some i then (fs, .err "write failed")
    else writeLoop faults path (i + 1) (writeChunk fs path chunk) rest

/-- Model of `save_file` (main.rs lines 64–75): create (truncate) the destination,
then write every chunk of the field in order; any I/O error is returned as
`err` (anyhow `?` propagation). -/
def save_file (faults : SaveFaults) (fs : FSState) (field_chunks : List Bytes)
    (file_path : String) : FSState × RustResult Unit :=
  if faults.createFails then (fs, .err "create failed")
  else writeLoop faults file_path 0
    { fs with files := setFile fs.files file_path [] } field_chunks

/-- One multipart upload field: the client-declared filename
(`field.file_name()`, absent when the field carries none) and the sequence
of body chunks the field yields. -/
structure UploadField where
  file_name : Option String
  chunks : List Bytes
  deriving Repr, DecidableEq

/-- The `if !FilePath::new("./archive").exists() { create_dir(...) }` step at
the top of `video_upload`. -/
def ensureArchiveDir (fs : FSState) : FSState :=
  if fs.archiveExists then fs else { fs with archiveExists := true }

/-- The `while let Some(mut field) = multipart.next_field().await?` loop of
`video_upload`: for each field, require a filename (else anyhow error, giving
500 downstream), then `save_file` to `./archive/{name}`; a `save_file` error
hits `.expect(...)`, i.e. panics the handler task. -/
def uploadLoop : FSState → List (UploadField × SaveFaults) →
    FSState × RustResult (Nat × String)
  | fs, [] => (fs, .ok (200, "Video uploaded successfully"))
  | fs, (field, faults) :: rest =>
    match field.file_name with
    | none => (fs, .err "Missing file name")
    | some file_name =>
      match save_file faults fs field.chunks (archivePath file_name) with
      | (fs', .ok _) => uploadLoop fs' rest
      | (fs', .err _) => (fs', .panic ("Error uploading file: " ++ file_name))
      | (fs', .panic m) => (fs', .panic m)

/-- Model of `video_upload` (main.rs lines 77–103): ensure `./archive` exists, then
process every multipart field; on success return `(200, "Video uploaded
successfully")`. -/
def video_upload (fs : FSState) (fields : List (UploadField × SaveFaults)) :
    FSState × RustResult (Nat × String) :=
  uploadLoop (ensureArchiveDir fs) fields

/-- What the upload endpoint produces for the client: an HTTP response, or a
panicked handler task that sends no response at all. -/
inductive UploadOutcome where
  | resp (status : Nat) (body : String)
  | panicked (msg : String)
  deriving Repr, DecidableEq

/-- The HTTP status of an upload outcome, `none` when the task panicked and
no response was produced. -/
def uploadStatus : UploadOutcome → Option Nat
  | .resp s _ => some s
  | .panicked _ => none

/-- Model of `video_upload_handler` (main.rs lines 105–116): map `Ok` to the response,
`Err` to `500 "Internal server error"`; a panic inside `video_upload` escapes
the `match` and aborts the task. -/
def video_upload_handler (fs : FSState) (fields : List (UploadField × SaveFaults)) :
    FSState × UploadOutcome :=
  match video_upload fs fields with
  | (fs', .ok (s, b)) => (fs', .resp s b)
  | (fs', .err _) => (fs', .resp 500 "Internal server error")
  | (fs', .panic m) => (fs', .panicked m)

/-- A streaming response: `ok` is a 200 with the two headers set by the
handler and the streamed body bytes; `err` is a bare status code (axum turns
`Err(StatusCode)` into a bodiless response). -/
inductive StreamResult where
  | ok (status : Nat) (contentType : String) (acceptRanges : String) (body : Bytes)
  | err (status : Nat)
  deriving Repr, DecidableEq

/-- The body bytes of a streaming response, `none` on the error side. -/
def streamBody : StreamResult → Option Bytes
  | .ok _ _ _ b => some b
  | .err _ => none

/-- Model of `video_stream_handler` (main.rs lines 36–61): form
`./archive/{file_name}`, check existence (else 404), open the file (an
open failure after the check gives 500), and stream its full contents with
`Content-Type: video/mp4` and `Accept-Ranges: bytes`. -/
def video_stream_handler (openFails : Bool) (fs : FSState) (file_name : String) :
    StreamResult :=
  match lookupFile fs.files (archivePath file_name) with
  | none => .err 404
  | some content =>
    if openFails then .err 500
    else .ok 200 "video/mp4" "bytes" content

/-- Model of `delete_file_handler` (main.rs lines 140–158): form
`./archive/{file_name}`, check existence (else 404), then `remove_file`
(failure gives 500, success gives `200 "File deleted successfully"`). -/
def delete_file_handler (removeFails : Bool) (fs : FSState) (file_name : String) :
    FSState × Except Nat (Nat × String) :=
  match lookupFile fs.files (archivePath file_name) with
  | none => (fs, .error 404)
  | some _ =>
    if removeFails then (fs, .error 500)
    else ({ fs with files := removeFile fs.files (archivePath file_name) },
          .ok (200, "File deleted successfully"))

/-- Model of `archive_handler` (main.rs lines 118–137): `create_dir_all("./archive")`
(creating the directory when absent), then `read_dir`; a `read_dir` failure
gives 500, otherwise 200 with the entry names.  Errors from `next_entry`
mid-enumeration hit an `unwrap` and are outside this model. -/
def archive_handler (readDirFails : Bool) (fs : FSState) :
    FSState × Except Nat (Nat × List String) :=
  let fs1 := { fs with archiveExists := true }
  if readDirFails then (fs1, .error 500)
  else (fs1, .ok (200, readDirArchive fs1))

/-- The concatenation of a chunk sequence: the bytes a field's chunks carry
overall. -/
def joinChunks : List Bytes → Bytes
  | [] => []
  | c :: cs => c ++ joinChunks cs

/-! ### Basic lemmas about the filesystem model -/

theorem lookupFile_setFile_self (files : List (String × Bytes)) (p : String) (c : Bytes) :
    lookupFile (setFile files p c) p = some c := by
  induction files with
  | nil => simp [setFile, lookupFile]
  | cons e rest ih =>
    by_cases h : e.1 = p
    · simp [setFile, h, lookupFile]
    · simp [setFile, h, lookupFile, ih]

theorem lookupFile_removeFile_self (files : List (String × Bytes)) (p : String) :
    lookupFile (removeFile files p) p = none := by
  induction files with
  | nil => simp [removeFile, lookupFile]
  | cons e rest ih =>
    by_cases h : e.1 = p
    · simpa [removeFile, List.filter_cons, h] using ih
    · have hstep : removeFile (e :: rest) p = e :: removeFile rest p := by
        simp [removeFile, List.filter_cons, h]
      rw [hstep]
      simp [lookupFile, h, ih]

theorem lookupFile_isSome_iff (files : List (String × Bytes)) (p : String) :
    (lookupFile files p).isSome ↔ ∃ e ∈ files, e.1 = p := by
  induction files with
  | nil => simp [lookupFile]
  | cons e rest ih =>
    by_cases h : e.1 = p
    · simp [lookupFile, h]
    · simp [lookupFile, h, ih]

theorem stripChars_append (pre s : List Char) : stripChars pre (pre ++ s) = some s := by
  induction pre with
  | nil => simp [stripChars]
  | cons p ps ih => simp [stripChars, ih]

theorem stripChars_eq_some (pre : List Char) :
    ∀ s t : List Char, stripChars pre s = some t → s = pre ++ t := by
  induction pre with
  | nil =>
    intro s t h
    simp [stripChars] at h
    simp [h]
  | cons p ps ih =>
    intro s t h
    cases s with
    | nil => simp [stripChars] at h
    | cons c cs =>
      by_cases hc : c = p
      · simp only [stripChars, if_pos hc] at h
        simp [hc, ih cs t h]
      · simp [stripChars, hc] at h

theorem entryName_archivePath (n : String) : entryName (archivePath n) = some n := by
  show (stripChars "./archive/".data ("./archive/".data ++ n.data)).map String.mk = some n
  rw [stripChars_append]
  rfl

theorem entryName_eq_some (p n : String) (h : entryName p = some n) : p = archivePath n := by
  unfold entryName at h
  rcases ho : stripChars "./archive/".data p.data with _ | t
  · rw [ho] at h; simp at h
  · rw [ho] at h
    simp only [Option.map_some'] at h
    have hp := stripChars_eq_some "./archive/".data p.data t ho
    have hn := Option.some.inj h
    subst hn
    calc p = String.mk p.data := rfl
    _ = String.mk ("./archive/".data ++ t) := by rw [hp]
    _ = archivePath (String.mk t) := rfl

theorem mem_readDirArchive (fs : FSState) (n : String) :
    n ∈ readDirArchive fs ↔ (lookupFile fs.files (archivePath n)).isSome := by
  rw [readDirArchive, List.mem_filterMap, lookupFile_isSome_iff]
  constructor
  · rintro ⟨e, he, hn⟩
    exact ⟨e, he, entryName_eq_some e.1 n hn⟩
  · rintro ⟨e, he, hp⟩
    exact ⟨e, he, by rw [hp, entryName_archivePath]⟩

/-! ### Lemmas about the chunked writer and the upload pipeline -/

theorem writeLoop_content (faults : SaveFaults) (path : String) (chunks : List Bytes) :
    ∀ (i : Nat) (fs : FSState) (acc : Bytes),
      lookupFile fs.files path = some acc →
      (writeLoop faults path i fs chunks).2 = RustResult.ok () →
      lookupFile (writeLoop faults path i fs chunks).1.files path
        = some (acc ++ joinChunks chunks) := by
  induction chunks with
  | nil =>
    intro i fs acc hacc _
    simpa [writeLoop, joinChunks] using hacc
  | cons c cs ih =>
    intro i fs acc hacc hok
    by_cases h : faults.writeFailAt = some i
    · simp [writeLoop, h] at hok
    · have hacc' : lookupFile (writeChunk fs path c).files path = some (acc ++ c) := by
        simp [writeChunk, lookupFile_setFile_self, hacc]
      have hrec := ih (i + 1) (writeChunk fs path c) (acc ++ c) hacc'
        (by simpa [writeLoop, h] using hok)
      simpa [writeLoop, h, joinChunks, List.append_assoc] using hrec

theorem save_file_ok_content (faults : SaveFaults) (fs : FSState) (chunks : List Bytes)
    (path : String) (h : (save_file faults fs chunks path).2 = RustResult.ok ()) :
    lookupFile (save_file faults fs chunks path).1.files path = some (joinChunks chunks) := by
  by_cases hc : faults.createFails
  · simp [save_file, hc] at h
  · have h0 : lookupFile (setFile fs.files path []) path = some [] :=
      lookupFile_setFile_self fs.files path []
    have hrec := writeLoop_content faults path chunks 0
      { fs with files := setFile fs.files path [] } [] h0
      (by simpa [save_file, hc] using h)
    simpa [save_file, hc] using hrec

theorem writeLoop_noFaults_ok (path : String) (chunks : List Bytes) :
    ∀ (i : Nat) (fs : FSState), (writeLoop noFaults path i fs chunks).2 = RustResult.ok () := by
  induction chunks with
  | nil => intro i fs; simp [writeLoop]
  | cons c cs ih =>
    intro i fs
    show (writeLoop noFaults path (i + 1) (writeChunk fs path c) cs).2 = RustResult.ok ()
    exact ih (i + 1) (writeChunk fs path c)

theorem save_file_noFaults_ok (fs : FSState) (chunks : List Bytes) (path : String) :
    (save_file noFaults fs chunks path).2 = RustResult.ok () := by
  show (writeLoop noFaults path 0
    { fs with files := setFile fs.files path [] } chunks).2 = RustResult.ok ()
  exact writeLoop_noFaults_ok path chunks 0 _

theorem video_upload_single (fs : FSState) (n : String) (chunks : List Bytes) :
    video_upload fs [(⟨some n, chunks⟩, noFaults)]
      = ((save_file noFaults (ensureArchiveDir fs) chunks (archivePath n)).1,
         RustResult.ok (200, "Video uploaded successfully")) := by
  have hok := save_file_noFaults_ok (ensureArchiveDir fs) chunks (archivePath n)
  rcases hsf : save_file noFaults (ensureArchiveDir fs) chunks (archivePath n) with ⟨fs', r⟩
  rw [hsf] at hok
  have hr : r = RustResult.ok () := hok
  subst hr
  simp [video_upload, uploadLoop, hsf]

theorem video_upload_handler_single (fs : FSState) (n : String) (chunks : List Bytes) :
    video_upload_handler fs [(⟨some n, chunks⟩, noFaults)]
      = ((save_file noFaults (ensureArchiveDir fs) chunks (archivePath n)).1,
         UploadOutcome.resp 200 "Video uploaded successfully") := by
  unfold video_upload_handler
  rw [video_upload_single]

theorem uploadLoop_save_err (fs : FSState) (n : String) (chunks : List Bytes)
    (faults : SaveFaults) (rest : List (UploadField × SaveFaults)) (e : String)
    (h : (save_file faults fs chunks (archivePath n)).2 = RustResult.err e) :
    uploadLoop fs ((⟨some n, chunks⟩, faults) :: rest)
      = ((save_file faults fs chunks (archivePath n)).1,
         RustResult.panic ("Error uploading file: " ++ n)) := by
  rcases hsf : save_file faults fs chunks (archivePath n) with ⟨fs', r⟩
  rw [hsf] at h
  have hr : r = RustResult.err e := h
  subst hr
  simp [uploadLoop, hsf]

theorem video_stream_handler_of_lookup (openFails : Bool) (fs : FSState) (n : String)
    (content : Bytes) (h : lookupFile fs.files (archivePath n) = some content) :
    video_stream_handler openFails fs n
      = if openFails then StreamResult.err 500
        else StreamResult.ok 200 "video/mp4" "bytes" content := by
  simp [video_stream_handler, h]

/-! ### The claims -/

/-- C1: uploading one multipart field with filename `n` whose chunk sequence
concatenates to `joinChunks chunks`, and then streaming `n`, yields a 200
response whose body is exactly that concatenation, byte for byte (the upload
itself also responds 200). -/
theorem c1_upload_then_stream_round_trip (fs : FSState) (n : String) (chunks : List Bytes) :
    (video_upload_handler fs [(⟨some n, chunks⟩, noFaults)]).2
        = UploadOutcome.resp 200 "Video uploaded successfully"
    ∧ video_stream_handler false (video_upload_handler fs [(⟨some n, chunks⟩, noFaults)]).1 n
        = StreamResult.ok 200 "video/mp4" "bytes" (joinChunks chunks) := by
  have hok := save_file_noFaults_ok (ensureArchiveDir fs) chunks (archivePath n)
  have hcontent := save_file_ok_content noFaults (ensureArchiveDir fs) chunks (archivePath n) hok
  rw [video_upload_handler_single]
  refine ⟨rfl, ?_⟩
  simpa using video_stream_handler_of_lookup false _ n _ hcontent

/-- C2: whenever `save_file` succeeds, the destination file holds exactly the
concatenation of all the field's chunks in the order they were produced — no
reordering, duplication, or omission. -/
theorem c2_chunked_writer_exact_concatenation (faults : SaveFaults) (fs : FSState)
    (chunks : List Bytes) (path : String)
    (h : (save_file faults fs chunks path).2 = RustResult.ok ()) :
    lookupFile (save_file faults fs chunks path).1.files path = some (joinChunks chunks) :=
  save_file_ok_content faults fs chunks path h

/-- Witness for C2 at a concrete input: two chunks, a write fault scheduled
beyond the end of the stream, so the save succeeds. -/
theorem c2_witness :
    lookupFile (save_file ⟨false, some 5⟩ fsEmpty [[1, 2], [3]] "./archive/a.mp4").1.files
        "./archive/a.mp4" = some (joinChunks [[1, 2], [3]]) :=
  c2_chunked_writer_exact_concatenation ⟨false, some 5⟩ fsEmpty [[1, 2], [3]]
    "./archive/a.mp4" (by decide)

/-- C3 counterexample: a request whose single field has a filename but whose
first chunk write fails does not get a 500 response — the `.expect` in
`video_upload` panics the handler task and no response is produced at all. -/
theorem c3_counterexample_write_failure_panics_not_500 :
    (video_upload_handler fsEmpty [(⟨some "a.mp4", [[1]]⟩, ⟨false, some 0⟩)]).2
        = UploadOutcome.panicked ("Error uploading file: " ++ "a.mp4")
    ∧ uploadStatus
        (video_upload_handler fsEmpty [(⟨some "a.mp4", [[1]]⟩, ⟨false, some 0⟩)]).2
        ≠ some 500 := by
  decide

/-- C3 (amended): when creating the destination file or writing some chunk
fails for a field carrying a filename, the upload handler task panics — it
sends no HTTP response, in particular not a 500; the failure aborts only the
current request's task, never the process (a 500 is produced only on the
`Err` path, e.g. a field missing a filename). -/
theorem c3_amended_save_failure_panics (fs : FSState) (n : String) (chunks : List Bytes)
    (faults : SaveFaults) (rest : List (UploadField × SaveFaults)) (e : String)
    (h : (save_file faults (ensureArchiveDir fs) chunks (archivePath n)).2
        = RustResult.err e) :
    (video_upload_handler fs ((⟨some n, chunks⟩, faults) :: rest)).2
      = UploadOutcome.panicked ("Error uploading file: " ++ n) := by
  have hl := uploadLoop_save_err (ensureArchiveDir fs) n chunks faults rest e h
  simp [video_upload_handler, video_upload, hl]

/-- Witness for the amended C3 at a concrete input: `File::create` fails. -/
theorem c3_amended_witness :
    (video_upload_handler fsEmpty [(⟨some "b.mp4", [[1]]⟩, ⟨true, none⟩)]).2
      = UploadOutcome.panicked ("Error uploading file: " ++ "b.mp4") :=
  c3_amended_save_failure_panics fsEmpty "b.mp4" [[1]] ⟨true, none⟩ [] "create failed"
    (by decide)

/-- C4: when the existence check for `./archive/{n}` fails, streaming `n`
responds 404 with no body; when the check passes but the subsequent open
fails, it responds 500. -/
theorem c4_stream_error_mapping (openFails : Bool) (fs : FSState) (n : String) :
    (lookupFile fs.files (archivePath n) = none →
        video_stream_handler openFails fs n = StreamResult.err 404
        ∧ streamBody (video_stream_handler openFails fs n) = none)
    ∧ ((lookupFile fs.files (archivePath n)).isSome →
        video_stream_handler true fs n = StreamResult.err 500) := by
  constructor
  · intro h
    constructor <;> simp [video_stream_handler, h, streamBody]
  · intro h
    rcases ho : lookupFile fs.files (archivePath n) with _ | content
    · rw [ho] at h; simp at h
    · simp [video_stream_handler, ho]

/-- Witness for C4: streaming a missing name gives a bodiless 404; an open
failure on a present file gives 500. -/
theorem c4_witness :
    (video_stream_handler false fsEmpty "missing.mp4" = StreamResult.err 404
      ∧ streamBody (video_stream_handler false fsEmpty "missing.mp4") = none)
    ∧ video_stream_handler true ⟨[("./archive/a.mp4", [1])], true⟩ "a.mp4"
        = StreamResult.err 500 :=
  ⟨(c4_stream_error_mapping false fsEmpty "missing.mp4").1 (by decide),
   (c4_stream_error_mapping true ⟨[("./archive/a.mp4", [1])], true⟩ "a.mp4").2 (by decide)⟩

/-- C5: deleting a name whose file is absent at the existence check responds
404; when the check passes, a successful removal responds
`200 "File deleted successfully"` and a failing removal responds 500; and
after a successful delete, deleting the same name again responds 404. -/
theorem c5_delete_error_mapping (fs : FSState) (n : String) :
    (lookupFile fs.files (archivePath n) = none →
        delete_file_handler false fs n = (fs, Except.error 404)
        ∧ delete_file_handler true fs n = (fs, Except.error 404))
    ∧ ((lookupFile fs.files (archivePath n)).isSome →
        (delete_file_handler false fs n).2 = Except.ok (200, "File deleted successfully")
        ∧ delete_file_handler true fs n = (fs, Except.error 500)
        ∧ (delete_file_handler false (delete_file_handler false fs n).1 n).2
            = Except.error 404) := by
  constructor
  · intro h
    constructor <;> simp [delete_file_handler, h]
  · intro h
    rcases ho : lookupFile fs.files (archivePath n) with _ | content
    · rw [ho] at h; simp at h
    · refine ⟨?_, ?_, ?_⟩
      · simp [delete_file_handler, ho]
      · simp [delete_file_handler, ho]
      · have h1 : (delete_file_handler false fs n).1
            = { fs with files := removeFile fs.files (archivePath n) } := by
          simp [delete_file_handler, ho]
        rw [h1]
        simp [delete_file_handler, lookupFile_removeFile_self]

/-- Witness for C5: deleting an existing `v.mp4` succeeds, deleting it again
responds 404. -/
theorem c5_witness :
    (delete_file_handler false ⟨[("./archive/v.mp4", [7])], true⟩ "v.mp4").2
        = Except.ok (200, "File deleted successfully")
    ∧ (delete_file_handler false
        (delete_file_handler false ⟨[("./archive/v.mp4", [7])], true⟩ "v.mp4").1 "v.mp4").2
        = Except.error 404 :=
  ⟨((c5_delete_error_mapping ⟨[("./archive/v.mp4", [7])], true⟩ "v.mp4").2 (by decide)).1,
   ((c5_delete_error_mapping ⟨[("./archive/v.mp4", [7])], true⟩ "v.mp4").2 (by decide)).2.2⟩

/-- C6: List creates the directory when absent (not an error) and returns
exactly the names of the directory's current entries: a name is in the
listing iff a file is stored under it, and the listing is empty when the
filesystem holds no files. -/
theorem c6_archive_listing_exact (fs : FSState) :
    archive_handler false fs
        = ({ fs with archiveExists := true }, Except.ok (200, readDirArchive fs))
    ∧ (∀ n, n ∈ readDirArchive fs ↔ (lookupFile fs.files (archivePath n)).isSome)
    ∧ (fs.files = [] → readDirArchive fs = []) := by
  refine ⟨rfl, fun n => mem_readDirArchive fs n, fun h => ?_⟩
  simp [readDirArchive, h]

/-- Witness for C6: a stored `a.mp4` appears in the listing; the empty
filesystem lists nothing. -/
theorem c6_witness :
    "a.mp4" ∈ readDirArchive ⟨[("./archive/a.mp4", [1])], true⟩
    ∧ readDirArchive fsEmpty = [] :=
  ⟨((c6_archive_listing_exact ⟨[("./archive/a.mp4", [1])], true⟩).2.1 "a.mp4").mpr
      (by decide),
   (c6_archive_listing_exact fsEmpty).2.2 (by decide)⟩

/-- C7: when `read_dir` fails after the directory-creation attempt, List
responds 500 — an error response from the still-running handler, not a
crash. -/
theorem c7_list_read_failure_500 (fs : FSState) :
    archive_handler true fs = ({ fs with archiveExists := true }, Except.error 500) := rfl

/-- C8: Upload, Stream and Delete all form the storage path as the verbatim
concatenation `"./archive/" ++ n` of the client-supplied name — for every
name `n`, uploading stores the bytes at that path, streaming `n` returns
them, and deleting `n` removes exactly that path. -/
theorem c8_verbatim_filename_across_operations (fs : FSState) (n : String)
    (chunks : List Bytes) :
    lookupFile (video_upload_handler fs [(⟨some n, chunks⟩, noFaults)]).1.files
        ("./archive/" ++ n) = some (joinChunks chunks)
    ∧ video_stream_handler false (video_upload_handler fs [(⟨some n, chunks⟩, noFaults)]).1 n
        = StreamResult.ok 200 "video/mp4" "bytes" (joinChunks chunks)
    ∧ (delete_file_handler false (video_upload_handler fs [(⟨some n, chunks⟩, noFaults)]).1 n).2
        = Except.ok (200, "File deleted successfully")
    ∧ lookupFile
        (delete_file_handler false
          (video_upload_handler fs [(⟨some n, chunks⟩, noFaults)]).1 n).1.files
        ("./archive/" ++ n) = none := by
  have hok := save_file_noFaults_ok (ensureArchiveDir fs) chunks (archivePath n)
  have hcontent := save_file_ok_content noFaults (ensureArchiveDir fs) chunks (archivePath n) hok
  rw [video_upload_handler_single]
  refine ⟨hcontent, ?_, ?_, ?_⟩
  · simpa using video_stream_handler_of_lookup false _ n _ hcontent
  · simp [delete_file_handler, hcontent]
  · have h1 : (delete_file_handler false
        (save_file noFaults (ensureArchiveDir fs) chunks (archivePath n)).1 n).1
        = { (save_file noFaults (ensureArchiveDir fs) chunks (archivePath n)).1 with
            files := removeFile
              (save_file noFaults (ensureArchiveDir fs) chunks (archivePath n)).1.files
              (archivePath n) } := by
      simp [delete_file_handler, hcontent]
    rw [h1]
    exact lookupFile_removeFile_self _ (archivePath n)

/-- C9: uploading a field that carries filename `n` but no chunks succeeds
with 200, creates a zero-byte file stored under `./archive/{n}`, and `n`
appears in the subsequent List result. -/
theorem c9_empty_field_creates_zero_byte_file (fs : FSState) (n : String) :
    (video_upload_handler fs [(⟨some n, []⟩, noFaults)]).2
        = UploadOutcome.resp 200 "Video uploaded successfully"
    ∧ lookupFile (video_upload_handler fs [(⟨some n, []⟩, noFaults)]).1.files (archivePath n)
        = some []
    ∧ ∃ l, (archive_handler false (video_upload_handler fs [(⟨some n, []⟩, noFaults)]).1).2
          = Except.ok (200, l) ∧ n ∈ l := by
  have hok := save_file_noFaults_ok (ensureArchiveDir fs) [] (archivePath n)
  have hcontent := save_file_ok_content noFaults (ensureArchiveDir fs) [] (archivePath n) hok
  rw [video_upload_handler_single]
  refine ⟨rfl, hcontent,
    readDirArchive (save_file noFaults (ensureArchiveDir fs) [] (archivePath n)).1, rfl, ?_⟩
  exact (mem_readDirArchive _ n).mpr (by rw [hcontent]; rfl)

/-- C10 (implicit): an upload request whose multipart body contains no fields
is answered `200 "Video uploaded successfully"` and writes no file — the
one-or-more-fields precondition is never checked. -/
theorem c10_empty_multipart_returns_200_writes_nothing (fs : FSState) :
    video_upload_handler fs []
        = (ensureArchiveDir fs, UploadOutcome.resp 200 "Video uploaded successfully")
    ∧ (ensureArchiveDir fs).files = fs.files := by
  refine ⟨rfl, ?_⟩
  unfold ensureArchiveDir
  by_cases h : fs.archiveExists <;> simp [h]

end VideoArchiver
